import Mathlib

/-!
Shallow embedding of `src/node/lib/toolrunner.ts` (the `ToolRunner` class):
the argument-string tokenizer (`_argStringToArray`, `arg`) and the two
process-invocation paths (`exec`, the streaming path, and `execSync`, the
blocking path).

Conventions used throughout:
* JavaScript `null`/`undefined` values are modelled with `Option`.
* A thrown JavaScript exception is modelled by an `Option`-returning
  function producing `none`.
* Writable streams (`outStream`, `errStream`) are modelled as the list of
  strings written to them, in order.
* A `Q` deferred/promise is modelled by its final settlement
  (`Settled.resolved` / `Settled.rejected`).
-/

namespace ToolRunner

/-! ### Tokenizer

`_argStringToArray` runs the JavaScript regular expression
`/([^" ]*("[^"]*")[^" ]*)|[^" ]+/g` over the input via `String.match` and
then strips every double-quote character from each match.

The regex is fixed, so its global-match semantics are embedded directly:
at each scan position, alternative 1 (`[^" ]*("[^"]*")[^" ]*`) is tried
first, then alternative 2 (`[^" ]+`); on failure the scan advances one
character.  All the starred subpatterns are deterministic here (the
character classes exclude the characters that follow them, so greedy
matching never backtracks into a successful parse):
* the leading `[^" ]*` is the maximal run of plain (non-quote, non-space)
  characters and must be followed by a literal `"`;
* `[^"]*` is the maximal run up to the next `"`, which must exist;
* the trailing `[^" ]*` is again a maximal plain run.
-/

/-- A character matched by the class `[^" ]`: neither a double quote nor a
space. -/
def isPlain (c : Char) : Bool := c ≠ '"' && c ≠ ' '

/-- Attempt to match the regex `([^" ]*("[^"]*")[^" ]*)|[^" ]+` at the head
of `cs`.  Returns `some (m, rest)` where `m` is the matched text and `rest`
the remainder, or `none` when neither alternative matches here. -/
def matchHere (cs : List Char) : Option (List Char × List Char) :=
  let pre := cs.takeWhile isPlain
  let r1 := cs.dropWhile isPlain
  match r1 with
  | '"' :: r2 =>
    let inner := r2.takeWhile (fun c => c ≠ '"')
    let r3 := r2.dropWhile (fun c => c ≠ '"')
    match r3 with
    | '"' :: r4 =>
      let post := r4.takeWhile isPlain
      some (pre ++ '"' :: (inner ++ '"' :: post), r4.dropWhile isPlain)
    | _ =>
      -- no closing quote: alternative 1 fails; alternative 2 matches the
      -- plain run `pre` when it is non-empty
      if pre.isEmpty then none else some (pre, r1)
  | _ =>
    -- next character is a space (or end of input): alternative 1 fails
    if pre.isEmpty then none else some (pre, r1)

/-- Global matching (`String.match` with the `g` flag): collect successive
non-overlapping matches left to right, advancing one character past
positions where the regex does not match.  `fuel` bounds the number of scan
steps; every step consumes at least one character, so `cs.length` suffices
(see `scanTokens`). -/
def scanTokensAux : Nat → List Char → List (List Char)
  | 0, _ => []
  | _, [] => []
  | fuel + 1, c :: cs =>
    match matchHere (c :: cs) with
    | some (m, rest) => m :: scanTokensAux fuel rest
    | none => scanTokensAux fuel cs

/-- All matches of `/([^" ]*("[^"]*")[^" ]*)|[^" ]+/g` on `cs`. -/
def scanTokens (cs : List Char) : List (List Char) :=
  scanTokensAux cs.length cs

/-- `args[i].replace(/"/g, "")`: remove every double-quote character. -/
def stripQuotes (t : List Char) : List Char := t.filter (fun c => c ≠ '"')

/-- `_argStringToArray(argString)`.  JavaScript `String.match` returns
`null` when there is no match; the subsequent
`for (var i = 0; i < args.length; i++)` then dereferences `null` and throws
a `TypeError`, modelled here by `none`.  Otherwise each match has its
double quotes stripped. -/
def _argStringToArray (argString : String) : Option (List String) :=
  if (scanTokens argString.data).isEmpty then none
  else some ((scanTokens argString.data).map (fun t => String.mk (stripQuotes t)))

/-! ### Argument builder -/

/-- The dynamically-typed `val` parameter of `arg`: the source handles
string arrays and strings (any other value falls through all branches and
is ignored). -/
inductive ArgVal where
  | arr (a : List String)
  | str (s : String)
deriving DecidableEq

/-- `arg(val, literal?)` acting on the current `this.args` list `st`.
`!val` is truthy-checked first: the empty string is falsy (early return,
appending nothing), while an array is always truthy.  A string is appended
verbatim when `literal` is set, otherwise it is tokenized by
`_argStringToArray`; `none` propagates the tokenizer's thrown
`TypeError`. -/
def arg (st : List String) (val : ArgVal) (literal : Bool) : Option (List String) :=
  match val with
  | .arr a => some (st ++ a)
  | .str s =>
    if s = "" then some st
    else if literal then some (st ++ [s])
    else (_argStringToArray s).map (fun ts => st ++ ts)

/-! ### Process invoker — shared pieces

Option resolution (`ops`) fills every missing field with a default; the
stream fields are modelled by the write lists themselves, so only the three
boolean flags remain.  `os.EOL` is modelled as `"\n"` (POSIX). -/

/-- The resolved boolean execution options (`ops.silent`,
`ops.failOnStdErr`, `ops.ignoreReturnCode`); each defaults to `false`. -/
structure ExecOps where
  silent : Bool
  failOnStdErr : Bool
  ignoreReturnCode : Bool
deriving DecidableEq

/-- `os.EOL`, modelled as the POSIX line terminator. -/
def eol : String := "\n"

/-- The composed command line: `this.toolPath`, then
`' ' + this.args.join(' ')` when the joined argument string is
non-empty. -/
def cmdString (toolPath : String) (args : List String) : String :=
  let argString := String.intercalate " " args
  if argString = "" then toolPath else toolPath ++ " " ++ argString

/-! ### Process invoker — streaming path (`exec`)

The subprocess's observable behaviour is a sequence of `ChunkEvent`s
(`data` callbacks on `cp.stdout` / `cp.stderr`) followed by one terminal
event (`exit` with a possibly-`null` code, or `error` on launch failure).
The handler state is the `success` flag plus the two stream write lists;
the promise's settlement is computed at the terminal event. -/

/-- A `data` callback on one of the subprocess's output streams. -/
inductive ChunkEvent where
  | stdoutData (d : String)
  | stderrData (d : String)
deriving DecidableEq

/-- Does the chunk come from the subprocess's stderr? -/
def ChunkEvent.fromStderr : ChunkEvent → Bool
  | .stderrData _ => true
  | .stdoutData _ => false

/-- The terminal event of a run: `cp.on('exit', (code, signal))` with
`code = none` for `null` (signal termination), or `cp.on('error', err)` on
launch failure. -/
inductive TermEvent where
  | exited (code : Option Int)
  | spawnError (msg : String)
deriving DecidableEq

/-- The final settlement of the `Q` deferred returned by `exec`. -/
inductive Settled where
  | resolved (code : Option Int)
  | rejected (msg : String)
deriving DecidableEq

/-- Handler state of one streaming run: the `success` flag and everything
written so far to `ops.outStream` and `ops.errStream`. -/
structure ExecState where
  success : Bool
  outWrites : List String
  errWrites : List String
deriving DecidableEq

/-- JavaScript `code != 0` under loose equality: `null != 0` is `true`. -/
def jsNe0 : Option Int → Bool
  | none => true
  | some n => n != 0

/-- JavaScript string coercion of the exit code in
`'... return code: ' + code`: `null` prints as `"null"`. -/
def jsShow : Option Int → String
  | none => "null"
  | some n => toString n

/-- State at launch: `success = true`; unless `silent`, the command echo
`'[command]' + cmdString + os.EOL` has been written to `outStream`. -/
def initExecState (toolPath : String) (args : List String) (ops : ExecOps) : ExecState :=
  { success := true
    outWrites := if ops.silent then [] else ["[command]" ++ cmdString toolPath args ++ eol]
    errWrites := [] }

/-- One `data` callback.  A stdout chunk is written to `outStream` unless
`silent`.  A stderr chunk first assigns `success = !ops.failOnStdErr`,
then (unless `silent`) is written to `errStream` when `failOnStdErr` is
set and to `outStream` otherwise. -/
def stepChunk (ops : ExecOps) (st : ExecState) : ChunkEvent → ExecState
  | .stdoutData d =>
    if ops.silent then st else { st with outWrites := st.outWrites ++ [d] }
  | .stderrData d =>
    let st1 := { st with success := !ops.failOnStdErr }
    if ops.silent then st1
    else if ops.failOnStdErr then { st1 with errWrites := st1.errWrites ++ [d] }
    else { st1 with outWrites := st1.outWrites ++ [d] }

/-- Process a sequence of `data` callbacks in order. -/
def runChunks (ops : ExecOps) : ExecState → List ChunkEvent → ExecState
  | st, [] => st
  | st, e :: es => runChunks ops (stepChunk ops st e) es

/-- The `exit` handler: `if (code != 0 && !ops.ignoreReturnCode) success =
false`; then resolve with the code when `success` holds, otherwise reject
with `toolPath + ' failed with return code: ' + code`. -/
def stepExit (toolPath : String) (ops : ExecOps) (st : ExecState) (code : Option Int) :
    ExecState × Settled :=
  let success := if jsNe0 code && !ops.ignoreReturnCode then false else st.success
  ({ st with success := success },
   if success then Settled.resolved code
   else Settled.rejected (toolPath ++ " failed with return code: " ++ jsShow code))

/-- A whole streaming run of `exec`: command echo, `data` callbacks, then
the terminal event.  The `error` handler rejects with
`toolPath + ' failed. ' + err.message` and runs no exit-code logic. -/
def execRun (toolPath : String) (args : List String) (ops : ExecOps)
    (es : List ChunkEvent) : TermEvent → ExecState × Settled
  | .exited code => stepExit toolPath ops (runChunks ops (initExecState toolPath args ops) es) code
  | .spawnError msg =>
    (runChunks ops (initExecState toolPath args ops) es,
     Settled.rejected (toolPath ++ " failed. " ++ msg))

/-! ### Process invoker — blocking path (`execSync`) -/

/-- The record returned by `child_process.spawnSync`: `status` is `null`
when the process was killed by a signal or never ran, the output buffers
are `null` when spawning failed, and `error` is set on launch failure. -/
structure SpawnSyncResult where
  status : Option Int
  stdout : Option String
  stderr : Option String
  error : Option String
deriving DecidableEq

/-- `IExecResult` as populated by `execSync`:
`{ code: r.status, stdout: r.stdout, stderr: r.stderr, error: r.error }`. -/
structure ExecResult where
  stdout : Option String
  stderr : Option String
  code : Option Int
  error : Option String
deriving DecidableEq

/-- Everything observable from one `execSync` call: the two write lists
and the returned `IExecResult`. -/
structure SyncOutcome where
  outWrites : List String
  errWrites : List String
  result : ExecResult
deriving DecidableEq

/-- JavaScript `r.stdout && r.stdout.length > 0`: a present, non-empty
buffer. -/
def bufPresent : Option String → Bool
  | none => false
  | some s => s.length > 0

/-- `execSync`: echo the command line unless `silent`, call `spawnSync`
(whose outcome `r` is a parameter of the model), write the captured
buffers — unconditionally on `silent` — when present and non-empty, and
return the structured result.  The function is total: a normal non-zero
exit status is reported in `code`, never thrown. -/
def execSync (toolPath : String) (args : List String) (ops : ExecOps)
    (r : SpawnSyncResult) : SyncOutcome :=
  let echo := if ops.silent then [] else ["[command]" ++ cmdString toolPath args ++ eol]
  { outWrites := echo ++ (if bufPresent r.stdout then [r.stdout.getD ""] else [])
    errWrites := if bufPresent r.stderr then [r.stderr.getD ""] else []
    result := { stdout := r.stdout, stderr := r.stderr, code := r.status, error := r.error } }

/-! ## Helper lemmas -/

theorem stepChunk_stdout_success (ops : ExecOps) (st : ExecState) (d : String) :
    (stepChunk ops st (ChunkEvent.stdoutData d)).success = st.success := by
  cases h : ops.silent <;> simp [stepChunk, h]

theorem stepChunk_stderr_success (ops : ExecOps) (st : ExecState) (d : String) :
    (stepChunk ops st (ChunkEvent.stderrData d)).success = !ops.failOnStdErr := by
  cases h : ops.silent <;> cases h2 : ops.failOnStdErr <;> simp [stepChunk, h, h2]

/-- The `success` flag after a sequence of `data` callbacks: any stderr
chunk overwrites it with `!failOnStdErr`; otherwise it is untouched. -/
theorem runChunks_success (ops : ExecOps) (es : List ChunkEvent) (st : ExecState) :
    (runChunks ops st es).success =
      if es.any ChunkEvent.fromStderr then !ops.failOnStdErr else st.success := by
  induction es generalizing st with
  | nil => rfl
  | cons e es ih =>
    cases e with
    | stdoutData d =>
      rw [runChunks, ih, stepChunk_stdout_success]
      simp [ChunkEvent.fromStderr]
    | stderrData d =>
      rw [runChunks, ih, stepChunk_stderr_success]
      simp [ChunkEvent.fromStderr]

/-! ## Claims -/

/-- Claim C1 (code bug).  The spec says tokenization is total, but on a
non-empty input consisting only of spaces the global regex match finds no
token: JavaScript `String.match` returns `null` and the quote-stripping
loop in `_argStringToArray` throws a `TypeError` (modelled by `none`), both
when called directly and through `arg` in non-literal mode. -/
theorem tokenizer_throws_on_spaces :
    _argStringToArray "   " = none ∧ arg [] (ArgVal.str "   ") false = none := by
  constructor <;> decide

/-- Claim C6.  Tokenizing `"arg one" two -z` appends exactly
`["arg one", "two", "-z"]`; tokenizing `a"b"c` appends exactly `["abc"]`;
and `arg` with the empty string appends nothing (the prior `args` is
returned unchanged, with no empty-string token). -/
theorem arg_tokenization_examples :
    arg [] (ArgVal.str "\"arg one\" two -z") false = some ["arg one", "two", "-z"] ∧
    arg [] (ArgVal.str "a\"b\"c") false = some ["abc"] ∧
    arg ["x"] (ArgVal.str "") false = some ["x"] := by
  refine ⟨by decide, by decide, by decide⟩

/-- Claim C7.  Whenever tokenization succeeds, no resulting token contains
a double-quote character: every match is passed through
`replace(/"/g, "")`. -/
theorem tokens_quote_free (s : String) (ts : List String)
    (h : _argStringToArray s = some ts) : ∀ t ∈ ts, '"' ∉ t.data := by
  intro t ht
  by_cases he : (scanTokens s.data).isEmpty
  · simp [_argStringToArray, he] at h
  · simp only [_argStringToArray, if_neg he, Option.some.injEq] at h
    subst h
    rcases List.mem_map.mp ht with ⟨u, _, rfl⟩
    intro hq
    have hmem := List.mem_filter.mp hq
    simp at hmem

theorem tokens_quote_free_w : '"' ∉ "abc".data :=
  tokens_quote_free "a\"b\"c" ["abc"] (by decide) "abc" (by decide)

/-- Claim C3.  Exit handling on the streaming path: a non-zero (or `null`)
exit code with `ignoreReturnCode` unset clears the success flag; when the
final flag is `true` the promise resolves with the exit code, and when it
is `false` the promise rejects with an error naming the tool path and the
exit code. -/
theorem exec_exit_verdict (toolPath : String) (args : List String) (ops : ExecOps)
    (es : List ChunkEvent) (c : Option Int) :
    (jsNe0 c = true → ops.ignoreReturnCode = false →
      (execRun toolPath args ops es (TermEvent.exited c)).1.success = false) ∧
    ((execRun toolPath args ops es (TermEvent.exited c)).1.success = true →
      (execRun toolPath args ops es (TermEvent.exited c)).2 = Settled.resolved c) ∧
    ((execRun toolPath args ops es (TermEvent.exited c)).1.success = false →
      (execRun toolPath args ops es (TermEvent.exited c)).2 =
        Settled.rejected (toolPath ++ " failed with return code: " ++ jsShow c)) := by
  simp only [execRun, stepExit]
  cases hb : jsNe0 c && !ops.ignoreReturnCode with
  | true => simp
  | false =>
    rcases Bool.and_eq_false_iff.mp hb with h | h
    · simp only [Bool.false_eq_true, if_false]
      refine ⟨fun h1 _ => absurd h1 (by simp [h]), ?_, ?_⟩ <;>
        cases hs : (runChunks ops (initExecState toolPath args ops) es).success <;> simp [hs]
    · simp only [Bool.false_eq_true, if_false]
      refine ⟨fun _ h2 => ?_, ?_, ?_⟩
      · rw [h2] at h; simp at h
      · cases hs : (runChunks ops (initExecState toolPath args ops) es).success <;> simp [hs]
      · cases hs : (runChunks ops (initExecState toolPath args ops) es).success <;> simp [hs]

theorem exec_exit_verdict_w :
    (execRun "t" [] ⟨false, false, true⟩ [] (TermEvent.exited (some 1))).2 =
      Settled.resolved (some 1) :=
  (exec_exit_verdict "t" [] ⟨false, false, true⟩ [] (some 1)).2.1 (by decide)

/-- Claim C4.  With at least one stderr chunk and exit code `0`, the
streaming path resolves with `0` exactly when `failOnStdErr` is unset and
rejects when it is set; each stderr chunk is written to `errStream` when
`failOnStdErr` is set and to `outStream` otherwise, and only when `silent`
is unset. -/
theorem exec_stderr_routing_and_verdict (toolPath : String) (args : List String)
    (ops : ExecOps) (es : List ChunkEvent) (st : ExecState) (d : String) :
    (es.any ChunkEvent.fromStderr = true →
      (ops.failOnStdErr = false →
        (execRun toolPath args ops es (TermEvent.exited (some 0))).2 =
          Settled.resolved (some 0)) ∧
      (ops.failOnStdErr = true →
        (execRun toolPath args ops es (TermEvent.exited (some 0))).2 =
          Settled.rejected (toolPath ++ " failed with return code: " ++ jsShow (some 0)))) ∧
    ((stepChunk ops st (ChunkEvent.stderrData d)).errWrites =
      st.errWrites ++ (if ops.failOnStdErr && !ops.silent then [d] else [])) ∧
    ((stepChunk ops st (ChunkEvent.stderrData d)).outWrites =
      st.outWrites ++ (if !ops.failOnStdErr && !ops.silent then [d] else [])) := by
  refine ⟨fun hany => ?_, ?_, ?_⟩
  · have hsucc := runChunks_success ops es (initExecState toolPath args ops)
    rw [hany] at hsucc
    simp only [if_true] at hsucc
    constructor <;> intro hf <;>
      simp [execRun, stepExit, jsNe0, hsucc, hf]
  · cases h : ops.silent <;> cases h2 : ops.failOnStdErr <;> simp [stepChunk, h, h2]
  · cases h : ops.silent <;> cases h2 : ops.failOnStdErr <;> simp [stepChunk, h, h2]

theorem exec_stderr_routing_and_verdict_w :
    (execRun "t" [] ⟨false, false, false⟩ [ChunkEvent.stderrData "e"]
      (TermEvent.exited (some 0))).2 = Settled.resolved (some 0) :=
  ((exec_stderr_routing_and_verdict "t" [] ⟨false, false, false⟩
      [ChunkEvent.stderrData "e"] { success := true, outWrites := [], errWrites := [] }
      "e").1 (by decide)).1 rfl

/-- Claim C5.  The streaming path's success flag is monotone along every
run: it starts `true`, no later prefix of the chunk sequence can turn it
back from `false` to `true`, and the exit step can only preserve or clear
it. -/
theorem success_flag_monotone (toolPath : String) (args : List String) (ops : ExecOps)
    (es : List ChunkEvent) (i j : Nat) (st : ExecState) (c : Option Int) :
    (initExecState toolPath args ops).success = true ∧
    (i ≤ j →
      (runChunks ops (initExecState toolPath args ops) (es.take i)).success = false →
      (runChunks ops (initExecState toolPath args ops) (es.take j)).success = false) ∧
    (st.success = false → (stepExit toolPath ops st c).1.success = false) := by
  refine ⟨rfl, fun hij hi => ?_, fun hs => ?_⟩
  · rw [runChunks_success] at hi ⊢
    by_cases hany : (es.take i).any ChunkEvent.fromStderr = true
    · rw [hany] at hi
      simp only [if_true] at hi
      have hanyj : (es.take j).any ChunkEvent.fromStderr = true := by
        rcases List.any_eq_true.mp hany with ⟨x, hx, hpx⟩
        refine List.any_eq_true.mpr ⟨x, ?_, hpx⟩
        have : es.take i = (es.take j).take i := by
          rw [List.take_take, Nat.min_eq_left hij]
        exact List.take_subset i (es.take j) (this ▸ hx)
      rw [hanyj]
      simpa using hi
    · rw [Bool.eq_false_iff.mpr hany] at hi
      simp [initExecState] at hi
  · cases hb : jsNe0 c && !ops.ignoreReturnCode <;> simp [stepExit, hb, hs]

theorem success_flag_monotone_w :
    (runChunks ⟨false, true, false⟩ (initExecState "t" [] ⟨false, true, false⟩)
      ([ChunkEvent.stderrData "e"].take 1)).success = false :=
  (success_flag_monotone "t" [] ⟨false, true, false⟩ [ChunkEvent.stderrData "e"] 1 1
    { success := true, outWrites := [], errWrites := [] } (some 0)).2.1
    (by decide) (by decide)

/-- Claim C8.  A platform-level launch failure fails both paths for every
option set: the streaming path rejects with an error wrapping the tool
path and the platform message (no exit-code logic runs), and the blocking
path returns a result whose `error` field carries the platform error. -/
theorem launch_failure_always_fails (toolPath : String) (args : List String)
    (ops : ExecOps) (es : List ChunkEvent) (msg : String) (r : SpawnSyncResult)
    (e : String) :
    ((execRun toolPath args ops es (TermEvent.spawnError msg)).2 =
      Settled.rejected (toolPath ++ " failed. " ++ msg)) ∧
    (r.error = some e → (execSync toolPath args ops r).result.error = some e) := by
  exact ⟨rfl, fun h => by simp [execSync, h]⟩

theorem launch_failure_always_fails_w :
    (execSync "t" [] ⟨false, false, false⟩
      { status := none, stdout := none, stderr := none,
        error := some "ENOENT" }).result.error = some "ENOENT" :=
  (launch_failure_always_fails "t" [] ⟨false, false, false⟩ [] "m"
    { status := none, stdout := none, stderr := none, error := some "ENOENT" }
    "ENOENT").2 rfl

/-- Claim C9.  On normal termination (platform `error` absent, numeric
exit status) the blocking path returns
`{code: exitStatus, stdout, stderr, error: undefined}`; a non-zero status
is reported in `code`, never raised. -/
theorem execSync_normal_result (toolPath : String) (args : List String) (ops : ExecOps)
    (r : SpawnSyncResult) (c : Int) (hs : r.status = some c) (he : r.error = none) :
    (execSync toolPath args ops r).result =
      { stdout := r.stdout, stderr := r.stderr, code := some c, error := none } := by
  simp [execSync, hs, he]

theorem execSync_normal_result_w :
    (execSync "t" [] ⟨false, false, false⟩
      { status := some 3, stdout := some "out", stderr := some "", error := none }).result =
      { stdout := some "out", stderr := some "", code := some 3, error := none } :=
  execSync_normal_result "t" [] ⟨false, false, false⟩
    { status := some 3, stdout := some "out", stderr := some "", error := none } 3 rfl rfl

/-- Claim C10.  On the blocking path the captured stdout always goes to
`outStream` and the captured stderr always to `errStream`, each only when
present and non-empty; `failOnStdErr` never changes the routing (unlike
the streaming path). -/
theorem execSync_fixed_routing (toolPath : String) (args : List String) (ops : ExecOps)
    (r : SpawnSyncResult) (b : Bool) (s e : String) :
    ((execSync toolPath args { ops with failOnStdErr := b } r).outWrites =
        (execSync toolPath args ops r).outWrites ∧
      (execSync toolPath args { ops with failOnStdErr := b } r).errWrites =
        (execSync toolPath args ops r).errWrites) ∧
    (r.stdout = some s → 0 < s.length → s ∈ (execSync toolPath args ops r).outWrites) ∧
    (r.stderr = some e → 0 < e.length → (execSync toolPath args ops r).errWrites = [e]) ∧
    (bufPresent r.stderr = false → (execSync toolPath args ops r).errWrites = []) ∧
    (bufPresent r.stdout = false →
      (execSync toolPath args ops r).outWrites =
        if ops.silent then [] else ["[command]" ++ cmdString toolPath args ++ eol]) := by
  refine ⟨⟨rfl, rfl⟩, fun h hl => ?_, fun h hl => ?_, fun h => ?_, fun h => ?_⟩
  · simp [execSync, h, bufPresent, hl]
  · simp [execSync, h, bufPresent, hl]
  · simp [execSync, h]
  · simp [execSync, h]

theorem execSync_fixed_routing_w :
    "o" ∈ (execSync "t" [] ⟨false, false, false⟩
      { status := some 0, stdout := some "o", stderr := some "e", error := none }).outWrites :=
  (execSync_fixed_routing "t" [] ⟨false, false, false⟩
    { status := some 0, stdout := some "o", stderr := some "e", error := none }
    true "o" "e").2.1 rfl (by decide)

/-- Claim C2, counterexample.  With `silent = true` the blocking path still
writes the captured stdout and stderr to `outStream`/`errStream`: the
`silent` guard in `execSync` covers only the command echo. -/
theorem execSync_silent_counterexample :
    (execSync "t" [] ⟨true, false, false⟩
      { status := some 0, stdout := some "x", stderr := some "y",
        error := none }).outWrites = ["x"] ∧
    (execSync "t" [] ⟨true, false, false⟩
      { status := some 0, stdout := some "x", stderr := some "y",
        error := none }).errWrites = ["y"] := by
  constructor <;> decide

/-- Claim C2, amended.  On the blocking path the captured output is
written to the configured streams only after the process has exited, but
regardless of `silent`: flipping `silent` off only prepends the command
echo to `outStream` and changes nothing else, and non-empty captured
stdout/stderr reach `outStream`/`errStream` even when `silent` is set. -/
theorem execSync_writes_despite_silent (toolPath : String) (args : List String)
    (ops : ExecOps) (r : SpawnSyncResult) (s e : String) :
    ((execSync toolPath args { ops with silent := false } r).outWrites =
      ("[command]" ++ cmdString toolPath args ++ eol) ::
        (execSync toolPath args { ops with silent := true } r).outWrites) ∧
    ((execSync toolPath args { ops with silent := false } r).errWrites =
      (execSync toolPath args { ops with silent := true } r).errWrites) ∧
    (r.stdout = some s → 0 < s.length →
      s ∈ (execSync toolPath args { ops with silent := true } r).outWrites) ∧
    (r.stderr = some e → 0 < e.length →
      e ∈ (execSync toolPath args { ops with silent := true } r).errWrites) := by
  refine ⟨rfl, rfl, fun h hl => ?_, fun h hl => ?_⟩
  · simp [execSync, h, bufPresent, hl]
  · simp [execSync, h, bufPresent, hl]

theorem execSync_writes_despite_silent_w :
    "x" ∈ (execSync "t" [] ⟨true, false, false⟩
      { status := some 0, stdout := some "x", stderr := some "y",
        error := none }).outWrites :=
  (execSync_writes_despite_silent "t" [] ⟨true, false, false⟩
    { status := some 0, stdout := some "x", stderr := some "y", error := none }
    "x" "y").2.2.1 rfl (by decide)

end ToolRunner
